import Mathlib

/-! protoo-go: transport, peer and room.

A shallow embedding of `transport/websocket_transport.go`, `peer/message.go`,
`peer/peer.go` and `room/room.go`.

Conventions of the embedding.

* A Go channel is the list of the values sent on it and not yet received,
  oldest first; a send appends. Capacities are not modelled: a send on a
  full channel waits for room, it never drops.
* A goroutine loop (`Run`, `ReadLoop`) is a function of the sequence
  of events its `select` or its blocking read delivers. `WriteLoop` is not
  embedded; what it calls on its way out, `Stop` and `close`, is.
* Application callbacks and the per-request result channels live outside the
  `Peer` struct. A handler returns, next to the new peer, the list
  of what it did to them (`Effect`).
* `encoding/json` and `math/rand` are collaborators outside the repository.
  Bytes are taken up to the JSON document they spell (`Bytes`), the struct
  codec follows the `json:"..."` tags of `message.go`, and a draw of the
  random source is an argument.
-/

namespace Protoo

/-! ## JSON collaborator -/

/-- A JSON document. Integer literals and other number literals are kept
apart because only the former decode into a Go `int`. -/
inductive Json where
  | null
  | bool (b : Bool)
  | num (n : Int)
  | real (lit : String)
  | str (s : String)
  | arr (items : List Json)
  | obj (members : List (String × Json))

/-- A Go `[]byte` / `json.RawMessage`, up to the JSON document it spells:
the nil slice, the text of a document, or bytes that are not JSON text. -/
inductive Bytes where
  | nil
  | json (doc : Json)
  | malformed (raw : List Nat)

abbrev RawMessage := Bytes

/-- A Go `interface{}` argument as `json.Marshal` sees it: it encodes to a
document, or Marshal reports an error with the given message. -/
inductive GoValue where
  | encodable (doc : Json)
  | unencodable (err : String)

/-- The call `json.Marshal(data)` on an `interface{}` argument. -/
def Marshal : GoValue → Except String Bytes
  | .encodable doc => .ok (.json doc)
  | .unencodable err => .error err

/-- The document a `json.RawMessage` field contributes to the enclosing
object: `null` for the nil slice, the document itself for JSON text, an
error for anything else. -/
def rawField : RawMessage → Except String Json
  | .nil => .ok .null
  | .json doc => .ok doc
  | .malformed _ => .error "json: error calling MarshalJSON for type json.RawMessage"

def minInt : Int := -(2 ^ 63)

def maxInt : Int := 2 ^ 63 - 1

/-- Store a JSON value into a Go `bool` field (`null` leaves it alone). -/
def setBool (cur : Bool) : Json → Option Bool
  | .bool b => some b
  | .null => some cur
  | _ => none

/-- Store a JSON value into a Go `int` field (`null` leaves it alone). -/
def setInt (cur : Int) : Json → Option Int
  | .num n => if minInt ≤ n ∧ n ≤ maxInt then some n else none
  | .null => some cur
  | _ => none

/-- Store a JSON value into a Go `string` field (`null` leaves it alone). -/
def setString (cur : String) : Json → Option String
  | .str s => some s
  | .null => some cur
  | _ => none

/-- Store a JSON value into a `json.RawMessage` field: any value, taken raw. -/
def setRaw (_cur : RawMessage) : Json → Option RawMessage
  | doc => some (.json doc)

/-- Case folding of one character of an object key, as far as it can meet a
tag made of ASCII letters: an ASCII letter folds to its lower case, and so do
the two other characters of the case orbits of `s` and `k`, the long s
(U+017F) and the Kelvin sign (U+212A). -/
def foldChar (c : Char) : Char :=
  if c.val = 0x17F then Char.ofNat 115
  else if c.val = 0x212A then Char.ofNat 107
  else c.toLower

/-- Case folding of an object key. -/
def foldKey (k : String) : List Char := k.data.map foldChar

/-- The struct field an object key selects: the field whose tag is the key,
else the first field whose tag equals it up to case; none when the key is
unknown (such members are skipped). -/
def fieldOf (tags : List String) (k : String) : Option String :=
  match tags.find? (fun t => t == k) with
  | some t => some t
  | none => tags.find? (fun t => foldKey t == foldKey k)

/-- Decode the bytes of a frame into a struct: a syntax error fails, the
document `null` leaves the zero value, an object stores its members in
order into the fields they select, any other document is a type error. -/
def unmarshalStruct {α : Type} (zero : α) (tags : List String)
    (store : α → String → Json → Option α) : Bytes → Option α
  | .json (.obj members) =>
    members.foldlM
      (fun acc kv =>
        match fieldOf tags kv.1 with
        | some t => store acc t kv.2
        | none => some acc)
      zero
  | .json .null => some zero
  | _ => none

/-! ## peer/message.go

The fields of the message structs carry their wire names (`request`, `id`,
`errorCode`, ...): the Go names `Request`, `Response` and `Notification` are
also the names of the structs. A Go `string` is a Lean `String`, that is,
text that is valid UTF-8; `json.Marshal` writes every other byte of a
string as U+FFFD, and such strings are not values of this embedding. -/

abbrev AcceptFunc := Nat

abbrev RejectFunc := Nat

structure PeerMsg where
  request : Bool
  response : Bool
  ok : Bool
  notification : Bool
deriving DecidableEq, Repr

structure Request where
  request : Bool
  id : Int
  method : String
  data : RawMessage

structure Response where
  response : Bool
  id : Int
  ok : Bool
  data : RawMessage

structure ResponseError where
  response : Bool
  id : Int
  ok : Bool
  errorCode : Int
  errorReason : String
deriving DecidableEq, Repr

structure Notification where
  notification : Bool
  method : String
  data : RawMessage

def PeerMsg.tags : List String := ["request", "response", "ok", "notification"]

def Request.tags : List String := ["request", "id", "method", "data"]

def Response.tags : List String := ["response", "id", "ok", "data"]

def ResponseError.tags : List String := ["response", "id", "ok", "errorCode", "errorReason"]

def Notification.tags : List String := ["notification", "method", "data"]

def PeerMsg.zero : PeerMsg := ⟨false, false, false, false⟩

def Request.zero : Request := ⟨false, 0, "", .nil⟩

def Response.zero : Response := ⟨false, 0, false, .nil⟩

def ResponseError.zero : ResponseError := ⟨false, 0, false, 0, ""⟩

def Notification.zero : Notification := ⟨false, "", .nil⟩

def PeerMsg.store (m : PeerMsg) (tag : String) (v : Json) : Option PeerMsg :=
  if tag = "request" then (setBool m.request v).map (fun b => { m with request := b })
  else if tag = "response" then (setBool m.response v).map (fun b => { m with response := b })
  else if tag = "ok" then (setBool m.ok v).map (fun b => { m with ok := b })
  else if tag = "notification" then
    (setBool m.notification v).map (fun b => { m with notification := b })
  else some m

def Request.store (m : Request) (tag : String) (v : Json) : Option Request :=
  if tag = "request" then (setBool m.request v).map (fun b => { m with request := b })
  else if tag = "id" then (setInt m.id v).map (fun n => { m with id := n })
  else if tag = "method" then (setString m.method v).map (fun s => { m with method := s })
  else if tag = "data" then (setRaw m.data v).map (fun d => { m with data := d })
  else some m

def Response.store (m : Response) (tag : String) (v : Json) : Option Response :=
  if tag = "response" then (setBool m.response v).map (fun b => { m with response := b })
  else if tag = "id" then (setInt m.id v).map (fun n => { m with id := n })
  else if tag = "ok" then (setBool m.ok v).map (fun b => { m with ok := b })
  else if tag = "data" then (setRaw m.data v).map (fun d => { m with data := d })
  else some m

def ResponseError.store (m : ResponseError) (tag : String) (v : Json) : Option ResponseError :=
  if tag = "response" then (setBool m.response v).map (fun b => { m with response := b })
  else if tag = "id" then (setInt m.id v).map (fun n => { m with id := n })
  else if tag = "ok" then (setBool m.ok v).map (fun b => { m with ok := b })
  else if tag = "errorCode" then (setInt m.errorCode v).map (fun n => { m with errorCode := n })
  else if tag = "errorReason" then
    (setString m.errorReason v).map (fun s => { m with errorReason := s })
  else some m

def Notification.store (m : Notification) (tag : String) (v : Json) : Option Notification :=
  if tag = "notification" then
    (setBool m.notification v).map (fun b => { m with notification := b })
  else if tag = "method" then (setString m.method v).map (fun s => { m with method := s })
  else if tag = "data" then (setRaw m.data v).map (fun d => { m with data := d })
  else some m

/-- The call `json.Unmarshal(message, &msg)` with `msg` a `PeerMsg`. -/
def PeerMsg.Unmarshal : Bytes → Option PeerMsg :=
  unmarshalStruct PeerMsg.zero PeerMsg.tags PeerMsg.store

def Request.Unmarshal : Bytes → Option Request :=
  unmarshalStruct Request.zero Request.tags Request.store

def Response.Unmarshal : Bytes → Option Response :=
  unmarshalStruct Response.zero Response.tags Response.store

def ResponseError.Unmarshal : Bytes → Option ResponseError :=
  unmarshalStruct ResponseError.zero ResponseError.tags ResponseError.store

def Notification.Unmarshal : Bytes → Option Notification :=
  unmarshalStruct Notification.zero Notification.tags Notification.store

/-- The call `json.Marshal(request)`: an object with one member per field,
in declaration order, under the field's tag. -/
def Request.Marshal (m : Request) : Except String Bytes :=
  match rawField m.data with
  | .ok d =>
    .ok (.json (.obj [("request", .bool m.request), ("id", .num m.id),
      ("method", .str m.method), ("data", d)]))
  | .error e => .error e

def Response.Marshal (m : Response) : Except String Bytes :=
  match rawField m.data with
  | .ok d =>
    .ok (.json (.obj [("response", .bool m.response), ("id", .num m.id),
      ("ok", .bool m.ok), ("data", d)]))
  | .error e => .error e

def ResponseError.Marshal (m : ResponseError) : Except String Bytes :=
  .ok (.json (.obj [("response", .bool m.response), ("id", .num m.id),
    ("ok", .bool m.ok), ("errorCode", .num m.errorCode),
    ("errorReason", .str m.errorReason)]))

def Notification.Marshal (m : Notification) : Except String Bytes :=
  match rawField m.data with
  | .ok d =>
    .ok (.json (.obj [("notification", .bool m.notification),
      ("method", .str m.method), ("data", d)]))
  | .error e => .error e

/-- The function `RandInt`; `draw` is the outcome of the random source, of
which `rand.Intn(n)` returns `draw % n`, a number from 0 to `n - 1`. Its
only caller passes constants far from the bounds of `int`, so the
arithmetic does not wrap. -/
def RandInt (draw : Nat) (min max : Int) : Int :=
  if min ≥ max ∨ min = 0 ∨ max = 0 then max
  else (draw : Int) % (max - min) + min

def GenerateRandomNumber (draw : Nat) : Int :=
  RandInt draw 1000000 9999999

/-! ## transport/websocket_transport.go -/

def maxMessageSize : Nat := 131072

structure TransportErr where
  Code : Int
  Text : String
deriving DecidableEq, Repr

/-- The `*websocket.Conn` collaborator, as the record of what the transport
has asked of it: the read limit set, and how often `Close` was called. -/
structure Conn where
  readLimit : Nat
  closeCalls : Nat
deriving DecidableEq, Repr

/-- The struct `WebSocketTransport` with its embedded `TransportChans`. The
lock `stopLock` has no field: `Stop` holds it for its whole body, so calls of
`Stop` run one after the other. -/
structure WebSocketTransport where
  OnMsg : List Bytes
  OnErr : List TransportErr
  OnClose : List TransportErr
  SendCh : List Bytes
  socket : Conn
  closed : Bool
  stop : List Bool
  shutdown : Bool
  tErr : Option TransportErr

def NewWebSocketTransport (socket : Conn) : WebSocketTransport :=
  { OnMsg := [], OnErr := [], OnClose := [], SendCh := [],
    socket := socket, closed := false, stop := [], shutdown := false, tErr := none }

def WebSocketTransport.Stop (transport : WebSocketTransport) : WebSocketTransport :=
  if !transport.shutdown then
    { transport with shutdown := true, stop := transport.stop ++ [true] }
  else transport

def WebSocketTransport.Close (transport : WebSocketTransport) : WebSocketTransport :=
  transport.Stop

def WebSocketTransport.close (transport : WebSocketTransport) : WebSocketTransport :=
  if transport.closed == false then
    let transport := { transport with
      socket := { transport.socket with closeCalls := transport.socket.closeCalls + 1 } }
    let transport := { transport with closed := true }
    match transport.tErr with
    | some tErr => { transport with OnClose := transport.OnClose ++ [tErr] }
    | none => { transport with OnClose := transport.OnClose ++ [⟨100, "Closed"⟩] }
  else transport

/-- The close handler installed by `NewWebSocketTransport`. -/
def WebSocketTransport.closeHandler (transport : WebSocketTransport) (code : Int)
    (text : String) : WebSocketTransport :=
  { transport with tErr := some ⟨code, text⟩ }.Stop

/-- What one call of `socket.ReadMessage()` returns: a message, an error that
is a `*websocket.CloseError`, or any other error. -/
inductive ReadResult where
  | message (message : Bytes)
  | closeError (Code : Int) (Text : String)
  | otherError

/-- The `for` loop of `ReadLoop` over the results of the successive reads.
The flag tells whether the loop was left (`break` or `return`); with the
reads used up it is still waiting in `ReadMessage`. -/
def WebSocketTransport.readLoopBody :
    List ReadResult → WebSocketTransport → WebSocketTransport × Bool
  | [], transport => (transport, false)
  | .closeError code text :: _, transport =>
    ({ transport with tErr := some ⟨code, text⟩ }, true)
  | .otherError :: _, transport => (transport, true)
  | .message message :: rest, transport =>
    let transport := { transport with OnMsg := transport.OnMsg ++ [message] }
    let stop := transport.shutdown
    if stop then (transport, true)
    else WebSocketTransport.readLoopBody rest transport

/-- The method `ReadLoop`: set the read limit, run the loop, and on the way
out run the deferred `Stop`. -/
def WebSocketTransport.ReadLoop (reads : List ReadResult)
    (transport : WebSocketTransport) : WebSocketTransport :=
  let transport := { transport with
    socket := { transport.socket with readLimit := maxMessageSize } }
  match WebSocketTransport.readLoopBody reads transport with
  | (transport, true) => transport.Stop
  | (transport, false) => transport

/-- One call made on a transport from outside or from its own goroutines. -/
inductive TransportCall where
  | Close
  | Stop
  | close
deriving DecidableEq, Repr

def TransportCall.run : TransportCall → WebSocketTransport → WebSocketTransport
  | .Close, transport => transport.Close
  | .Stop, transport => transport.Stop
  | .close, transport => transport.close

/-- Whether a call is `Close()` or `Stop()`. -/
def TransportCall.isStop : TransportCall → Bool
  | .Close => true
  | .Stop => true
  | .close => false

/-- Whether a call is the internal `close()`. -/
def TransportCall.isClose : TransportCall → Bool
  | .close => true
  | _ => false

/-- Run a sequence of calls, first to last. -/
def WebSocketTransport.runCalls (calls : List TransportCall)
    (transport : WebSocketTransport) : WebSocketTransport :=
  calls.foldl (fun t c => c.run t) transport

/-! ## peer/peer.go -/

structure PeerErr where
  Code : Int
  Text : String
deriving DecidableEq, Repr

/-- A result channel made by `Request`, named by a number. -/
abbrev ResultChan := Nat

structure ResultFuture where
  Result : RawMessage
  Err : Option PeerErr

/-- The struct `Transcation`. A nil callback is `none`. The field `close`,
always the empty function, is left out. -/
structure Transcation where
  id : Int
  accept : Option AcceptFunc
  reject : Option RejectFunc
  resultChan : ResultChan
deriving DecidableEq, Repr

/-- The struct `RequestData`. Its closures `Accept` and `Reject` capture the
request and the peer; they are the functions `Peer.accept` and
`Peer.reject` applied to `request`. -/
structure RequestData where
  request : Request

structure SendRequestData where
  request : Request
  transcation : Transcation

/-- What a handler does outside the peer: it calls an accept callback, calls
a reject callback, or sends a value on a result channel. -/
inductive Effect where
  | accept (f : AcceptFunc) (data : RawMessage)
  | reject (f : RejectFunc) (errorCode : Int) (errorReason : String)
  | send (resultChan : ResultChan) (value : ResultFuture)

/-- The values a list of effects sends on one result channel, in order. -/
def Effect.sentOn (ch : ResultChan) (effects : List Effect) : List ResultFuture :=
  effects.filterMap
    (fun e =>
      match e with
      | .send c v => if c = ch then some v else none
      | _ => none)

/-- The Go map `map[int]*Transcation`: the entry under a key, if any. The
stored pointers are those `Request` builds, never nil. -/
abbrev Transcations := Int → Option Transcation

def Transcations.store (m : Transcations) (id : Int) (t : Transcation) : Transcations :=
  fun k => if k = id then some t else m k

def Transcations.delete (m : Transcations) (id : Int) : Transcations :=
  fun k => if k = id then none else m k

/-- The struct `Peer` with its embedded `PeerChans`. The channel `OnError`
is never made and never used. -/
structure Peer where
  OnRequest : List RequestData
  SendRequest : List SendRequestData
  OnNotification : List Notification
  OnClose : List TransportErr
  id : String
  transport : WebSocketTransport
  transcations : Transcations

def NewPeer (id : String) (con : WebSocketTransport) : Peer :=
  { OnRequest := [], SendRequest := [], OnNotification := [], OnClose := [],
    id := id, transport := con, transcations := fun _ => none }

/-- The send `peer.transport.SendCh <- str`. -/
def Peer.send (peer : Peer) (str : Bytes) : Peer :=
  { peer with transport := { peer.transport with SendCh := peer.transport.SendCh ++ [str] } }

def Peer.sendRequest (peer : Peer) (req : SendRequestData) : Peer :=
  let request := req.request
  match request.Marshal with
  | .error _ => peer
  | .ok str =>
    let peer := { peer with
      transcations := peer.transcations.store request.id req.transcation }
    peer.send str

def Peer.handleClose (peer : Peer) (err : TransportErr) : Peer :=
  { peer with OnClose := peer.OnClose ++ [err] }

def Peer.handleErr (peer : Peer) (_err : TransportErr) : Peer :=
  peer

def Peer.Close (peer : Peer) : Peer :=
  { peer with transport := peer.transport.Close }

def Peer.ID (peer : Peer) : String :=
  peer.id

/-- What `Request` leaves behind: the peer, the channel it returns, and what
it did to that channel. -/
structure Requested where
  peer : Peer
  resChan : ResultChan
  effects : List Effect

/-- The method `Request`. `draw` is the outcome of the random source and
`resChan` the new, empty channel that `make` returns. -/
def Peer.Request (peer : Peer) (draw : Nat) (resChan : ResultChan) (method : String)
    (data : GoValue) (success : Option AcceptFunc) (reject : Option RejectFunc) :
    Requested :=
  let id := GenerateRandomNumber draw
  match Marshal data with
  | .error err =>
    { peer := peer, resChan := resChan,
      effects := [.send resChan ⟨.nil, some ⟨10, err⟩⟩] }
  | .ok dataStr =>
    let request : Protoo.Request :=
      { request := true, id := id, method := method, data := dataStr }
    let transcation : Transcation :=
      { id := id, accept := success, reject := reject, resultChan := resChan }
    { peer := { peer with SendRequest := peer.SendRequest ++ [⟨request, transcation⟩] },
      resChan := resChan, effects := [] }

def Peer.Notify (peer : Peer) (method : String) (data : GoValue) : Peer :=
  match Marshal data with
  | .error _ => peer
  | .ok dataStr =>
    let notification : Notification :=
      { notification := true, method := method, data := dataStr }
    match notification.Marshal with
    | .error _ => peer
    | .ok str => peer.send str

/-- The closure `accept` of `handleRequest`. -/
def Peer.accept (peer : Peer) (request : Protoo.Request) (data : GoValue) : Peer :=
  match Marshal data with
  | .error _ => peer
  | .ok dataStr =>
    let response : Response :=
      { response := true, ok := true, id := request.id, data := dataStr }
    match response.Marshal with
    | .error _ => peer
    | .ok str => peer.send str

/-- The closure `reject` of `handleRequest`. -/
def Peer.reject (peer : Peer) (request : Protoo.Request) (errorCode : Int)
    (errorReason : String) : Peer :=
  let response : ResponseError :=
    { response := true, ok := false, id := request.id,
      errorCode := errorCode, errorReason := errorReason }
  match response.Marshal with
  | .error _ => peer
  | .ok str => peer.send str

def Peer.handleRequest (peer : Peer) (request : Protoo.Request) : Peer × List Effect :=
  ({ peer with OnRequest := peer.OnRequest ++ [⟨request⟩] }, [])

def Peer.handleResponse (peer : Peer) (response : Response) : Peer × List Effect :=
  let id := response.id
  match peer.transcations id with
  | none => (peer, [])
  | some transcation =>
    let effect : Effect :=
      match transcation.accept with
      | some accept => .accept accept response.data
      | none => .send transcation.resultChan ⟨response.data, none⟩
    ({ peer with transcations := peer.transcations.delete id }, [effect])

def Peer.handleResponseError (peer : Peer) (response : ResponseError) :
    Peer × List Effect :=
  let id := response.id
  match peer.transcations id with
  | none => (peer, [])
  | some transcation =>
    let effect : Effect :=
      match transcation.reject with
      | some reject => .reject reject response.errorCode response.errorReason
      | none =>
        .send transcation.resultChan
          ⟨.nil, some ⟨response.errorCode, response.errorReason⟩⟩
    ({ peer with transcations := peer.transcations.delete id }, [effect])

def Peer.handleNotification (peer : Peer) (notification : Notification) :
    Peer × List Effect :=
  ({ peer with OnNotification := peer.OnNotification ++ [notification] }, [])

def Peer.handleMessage (peer : Peer) (message : Bytes) : Peer × List Effect :=
  match PeerMsg.Unmarshal message with
  | none => (peer, [])
  | some msg =>
    if msg.request then
      match Request.Unmarshal message with
      | none => (peer, [])
      | some data => peer.handleRequest data
    else if msg.response then
      if msg.ok then
        match Response.Unmarshal message with
        | none => (peer, [])
        | some data => peer.handleResponse data
      else
        match ResponseError.Unmarshal message with
        | none => (peer, [])
        | some data => peer.handleResponseError data
    else if msg.notification then
      match Notification.Unmarshal message with
      | none => (peer, [])
      | some data => peer.handleNotification data
    else (peer, [])

/-- The case of the `select` in `Run` that fires. -/
inductive RunCase where
  | OnMsg
  | OnErr
  | OnClose
  | SendRequest
deriving DecidableEq, Repr

/-- One round of the loop of `Run`: receive from the channel of the case
that fires and handle the value. A case whose channel is empty cannot
fire; the round then does nothing. -/
def Peer.runCase (peer : Peer) : RunCase → Peer × List Effect
  | .OnMsg =>
    match peer.transport.OnMsg with
    | [] => (peer, [])
    | msg :: rest =>
      Peer.handleMessage { peer with transport := { peer.transport with OnMsg := rest } } msg
  | .OnErr =>
    match peer.transport.OnErr with
    | [] => (peer, [])
    | err :: rest =>
      (Peer.handleErr { peer with transport := { peer.transport with OnErr := rest } } err, [])
  | .OnClose =>
    match peer.transport.OnClose with
    | [] => (peer, [])
    | err :: rest =>
      (Peer.handleClose
        { peer with transport := { peer.transport with OnClose := rest } } err, [])
  | .SendRequest =>
    match peer.SendRequest with
    | [] => (peer, [])
    | data :: rest => (Peer.sendRequest { peer with SendRequest := rest } data, [])

/-- The loop of `Run` over the cases that fire, round after round. -/
def Peer.Run : List RunCase → Peer → Peer × List Effect
  | [], peer => (peer, [])
  | c :: rest, peer =>
    let (peer, effects) := peer.runCase c
    let (peer, more) := Peer.Run rest peer
    (peer, effects ++ more)

/-- A response frame as `handleMessage` tells them apart: `ok` true or false. -/
inductive ResponseMessage where
  | ok (response : Response)
  | error (response : ResponseError)

def ResponseMessage.id : ResponseMessage → Int
  | .ok response => response.id
  | .error response => response.id

/-- The handler `handleMessage` hands a decoded response to. -/
def Peer.handleResponseMessage (peer : Peer) : ResponseMessage → Peer × List Effect
  | .ok response => peer.handleResponse response
  | .error response => peer.handleResponseError response

/-! ## room/room.go

The mutex of a room has no field: every method holds it for its whole body,
so calls on a room run one after the other. `Map`, `GetPeers` and
`CreatePeer` play no part below and are left out. -/

/-- The struct `Room`. The Go map `peers` is the list of its entries, in the
order a `range` over it visits them; that order is arbitrary and every
statement about a room holds for each order. -/
structure Room where
  peers : List (String × Peer)
  closed : Bool
  id : String

def NewRoom (roomId : String) : Room :=
  { peers := [], closed := false, id := roomId }

/-- The assignment `m[key] = value` on the entries of a Go map. -/
def mapAssign (entries : List (String × Peer)) (key : String) (value : Peer) :
    List (String × Peer) :=
  if entries.any (fun e => e.1 == key) then
    entries.map (fun e => if e.1 == key then (key, value) else e)
  else entries ++ [(key, value)]

def Room.AddPeer (room : Room) (newPeer : Peer) : Room :=
  { room with peers := mapAssign room.peers newPeer.ID newPeer }

def Room.GetPeer (room : Room) (peerId : String) : Option Peer :=
  (room.peers.find? (fun e => e.1 == peerId)).map (fun e => e.2)

def Room.RemovePeer (room : Room) (peerId : String) : Room :=
  { room with peers := room.peers.filter (fun e => e.1 != peerId) }

def Room.ID (room : Room) : String :=
  room.id

def Room.HasPeer (room : Room) (peerId : String) : Bool :=
  room.peers.any (fun e => e.1 == peerId)

/-- The `for id, peer := range room.peers` loop of `Notify`. -/
def Room.notifyRange (sender : Peer) (method : String) (data : GoValue) :
    List (String × Peer) → List (String × Peer)
  | [] => []
  | (id, peer) :: rest =>
    if id != sender.ID then
      (id, peer.Notify method data) :: Room.notifyRange sender method data rest
    else (id, peer) :: Room.notifyRange sender method data rest

/-- The method `Notify`; `sender` is its parameter `from`. -/
def Room.Notify (room : Room) (sender : Peer) (method : String) (data : GoValue) : Room :=
  { room with peers := Room.notifyRange sender method data room.peers }

def Room.Close (room : Room) : Room :=
  { room with peers := room.peers.map (fun e => (e.1, e.2.Close)), closed := true }

/-- The number of frames waiting in the send queues of a room's members. -/
def Room.queued (room : Room) : Nat :=
  (room.peers.map (fun e => e.2.transport.SendCh.length)).sum

/-! ## Concrete states -/

/-- A new peer on a new transport. -/
def examplePeer : Peer :=
  NewPeer "a" (NewWebSocketTransport ⟨0, 0⟩)

/-- A peer with one request outstanding, under id 5, made without
callbacks; its result channel is channel 9. -/
def pendingPeer : Peer :=
  { examplePeer with
    transcations := Transcations.store (fun _ => none) 5 ⟨5, none, none, 9⟩ }

/-- A request made with an accept callback and no reject callback; `make`
returned channel 7 and the draw was 0. -/
def callbackRequested : Requested :=
  examplePeer.Request 0 7 "m" (.encodable .null) (some 1) none

/-- The peer after its loop has taken that request from `SendRequest`. -/
def callbackPeer : Peer :=
  (callbackRequested.peer.runCase .SendRequest).1

/-- Two requests made without callbacks on one peer, on channels 1 and 2; the
random source gave the same draw, 5, both times. -/
def collidingRequested : Requested :=
  (examplePeer.Request 5 1 "m" (.encodable .null) none none).peer.Request 5 2 "m"
    (.encodable .null) none none

/-- The frame of the notification `update` with payload `{"x":1}`. -/
def exampleNotification : Bytes :=
  .json (.obj [("notification", .bool true), ("method", .str "update"),
    ("data", .obj [("x", .num 1)])])

/-- The request `ping` with id 1000005 and payload `{"pong":true}`. -/
def exampleRequest : Request :=
  ⟨true, 1000005, "ping", .json (.obj [("pong", .bool true)])⟩

/-- Calls from several sides: two goroutines stop the transport, an outside
caller closes it, and `close()` runs twice. -/
def exampleCalls : List TransportCall :=
  [.Stop, .Close, .close, .Stop, .close]

/-- Three peers A, B and C, each on its own transport. -/
def peerA : Peer := NewPeer "A" (NewWebSocketTransport ⟨0, 0⟩)

def peerB : Peer := NewPeer "B" (NewWebSocketTransport ⟨0, 0⟩)

def peerC : Peer := NewPeer "C" (NewWebSocketTransport ⟨0, 0⟩)

/-- The room with peers A, B and C. -/
def exampleRoom : Room :=
  (((NewRoom "r").AddPeer peerA).AddPeer peerB).AddPeer peerC

/-- The frame of a response-ok with id 1000005 and no `data` member. -/
def frameWithoutData : Bytes :=
  .json (.obj [("response", .bool true), ("ok", .bool true), ("id", .num 1000005)])

/-- The response-ok with id 1000005 and nil data. -/
def nilDataResponse : Response :=
  ⟨true, 1000005, true, .nil⟩

/-- The bytes `{"response":true,"id":1000005,"ok":true,"data":null}`. -/
def nilDataResponseBytes : Bytes :=
  .json (.obj [("response", .bool true), ("id", .num 1000005), ("ok", .bool true),
    ("data", .null)])

/-! Theorems -/

/-! ## Response handling -/

theorem Peer.handleResponse_miss (peer : Peer) (response : Response)
    (h : peer.transcations response.id = none) :
    peer.handleResponse response = (peer, []) := by
  simp [Peer.handleResponse, h]

theorem Peer.handleResponseError_miss (peer : Peer) (response : ResponseError)
    (h : peer.transcations response.id = none) :
    peer.handleResponseError response = (peer, []) := by
  simp [Peer.handleResponseError, h]

theorem Peer.handleResponseMessage_miss (peer : Peer) (m : ResponseMessage)
    (h : peer.transcations m.id = none) :
    peer.handleResponseMessage m = (peer, []) := by
  cases m with
  | ok response => exact Peer.handleResponse_miss peer response h
  | error response => exact Peer.handleResponseError_miss peer response h

theorem Peer.handleResponseMessage_hit (peer : Peer) (m : ResponseMessage) (t : Transcation)
    (h : peer.transcations m.id = some t) :
    (peer.handleResponseMessage m).1 =
        { peer with transcations := peer.transcations.delete m.id } ∧
      (peer.handleResponseMessage m).2.length = 1 := by
  cases m with
  | ok response =>
    simp only [ResponseMessage.id] at h
    simp [Peer.handleResponseMessage, Peer.handleResponse, h, ResponseMessage.id]
  | error response =>
    simp only [ResponseMessage.id] at h
    simp [Peer.handleResponseMessage, Peer.handleResponseError, h, ResponseMessage.id]

/-- C1. At-most-once resolution: with a transaction stored under `i`, two
responses carrying `i` (each ok or error), handled one after the other, make
exactly one delivery in all; after the first the table has no entry under
`i`, and the second delivers nothing and leaves the peer, its table included,
as it was. In general a response whose id is not a key of the table delivers
nothing and leaves the peer as it was. -/
theorem Peer.response_resolved_at_most_once (peer : Peer) (t : Transcation) (i : Int)
    (m1 m2 : ResponseMessage) (ht : peer.transcations i = some t)
    (h1 : m1.id = i) (h2 : m2.id = i) :
    ((peer.handleResponseMessage m1).2 ++
        ((peer.handleResponseMessage m1).1.handleResponseMessage m2).2).length = 1 ∧
      (peer.handleResponseMessage m1).1.transcations i = none ∧
      ((peer.handleResponseMessage m1).1.handleResponseMessage m2).2 = [] ∧
      ((peer.handleResponseMessage m1).1.handleResponseMessage m2).1 =
        (peer.handleResponseMessage m1).1 ∧
      (∀ (other : Peer) (m : ResponseMessage), other.transcations m.id = none →
        (other.handleResponseMessage m).2 = [] ∧
          (other.handleResponseMessage m).1 = other) := by
  subst h1
  obtain ⟨hp, hl⟩ := Peer.handleResponseMessage_hit peer m1 t ht
  have hgone : (peer.handleResponseMessage m1).1.transcations m2.id = none := by
    rw [hp, h2]
    simp [Transcations.delete]
  have hsecond := Peer.handleResponseMessage_miss _ m2 hgone
  refine ⟨?_, ?_, ?_, ?_, ?_⟩
  · rw [hsecond]
    simpa using hl
  · rw [← h2]
    exact hgone
  · rw [hsecond]
  · rw [hsecond]
  · intro other m hm
    rw [Peer.handleResponseMessage_miss other m hm]
    exact ⟨rfl, rfl⟩

theorem Peer.response_resolved_at_most_once_witness :
    pendingPeer.transcations 5 = some ⟨5, none, none, 9⟩ ∧
      ((pendingPeer.handleResponseMessage (.ok ⟨true, 5, true, .json (.bool true)⟩)).2 ++
        ((pendingPeer.handleResponseMessage
          (.ok ⟨true, 5, true, .json (.bool true)⟩)).1.handleResponseMessage
            (.error ⟨true, 5, false, 404, "not found"⟩)).2).length = 1 :=
  ⟨rfl, (Peer.response_resolved_at_most_once pendingPeer ⟨5, none, none, 9⟩ 5
    (.ok ⟨true, 5, true, .json (.bool true)⟩) (.error ⟨true, 5, false, 404, "not found"⟩)
    rfl rfl rfl).1⟩

/-- C2. Response correlation: with transaction `t` stored under `i`, a
response-ok carrying `i` calls `t`'s accept callback with the response data
when `t` has one, and otherwise sends `ResultFuture{data, nil}` on `t`'s
result channel; a response-error carrying `i` calls `t`'s reject callback
with `(errorCode, errorReason)` when `t` has one, and otherwise sends
`ResultFuture{nil, PeerErr{errorCode, errorReason}}` on `t`'s result channel.
That is the only thing done. In both cases the entry under `i` is removed,
the entry under every other id stays as it was, nothing is sent on any other
result channel, and nothing else of the peer changes. -/
theorem Peer.response_correlation (peer : Peer) (t : Transcation) (i : Int)
    (ht : peer.transcations i = some t) :
    (∀ response : Response, response.id = i →
      (∀ f, t.accept = some f →
        (peer.handleResponse response).2 = [Effect.accept f response.data]) ∧
      (t.accept = none →
        (peer.handleResponse response).2 =
          [Effect.send t.resultChan ⟨response.data, none⟩]) ∧
      (peer.handleResponse response).1.transcations i = none ∧
      (∀ j, j ≠ i → (peer.handleResponse response).1.transcations j = peer.transcations j) ∧
      (∀ ch, ch ≠ t.resultChan → Effect.sentOn ch (peer.handleResponse response).2 = []) ∧
      { (peer.handleResponse response).1 with transcations := peer.transcations } = peer) ∧
    (∀ response : ResponseError, response.id = i →
      (∀ f, t.reject = some f →
        (peer.handleResponseError response).2 =
          [Effect.reject f response.errorCode response.errorReason]) ∧
      (t.reject = none →
        (peer.handleResponseError response).2 =
          [Effect.send t.resultChan
            ⟨Bytes.nil, some ⟨response.errorCode, response.errorReason⟩⟩]) ∧
      (peer.handleResponseError response).1.transcations i = none ∧
      (∀ j, j ≠ i →
        (peer.handleResponseError response).1.transcations j = peer.transcations j) ∧
      (∀ ch, ch ≠ t.resultChan →
        Effect.sentOn ch (peer.handleResponseError response).2 = []) ∧
      { (peer.handleResponseError response).1 with transcations := peer.transcations } =
        peer) := by
  constructor
  · intro response hid
    subst hid
    refine ⟨?_, ?_, ?_, ?_, ?_, ?_⟩
    · intro f hf
      simp [Peer.handleResponse, ht, hf]
    · intro hf
      simp [Peer.handleResponse, ht, hf]
    · simp [Peer.handleResponse, ht, Transcations.delete]
    · intro j hj
      simp [Peer.handleResponse, ht, Transcations.delete, hj]
    · intro ch hch
      cases hf : t.accept with
      | none => simp [Peer.handleResponse, ht, hf, Effect.sentOn, Ne.symm hch]
      | some f => simp [Peer.handleResponse, ht, hf, Effect.sentOn]
    · simp [Peer.handleResponse, ht]
  · intro response hid
    subst hid
    refine ⟨?_, ?_, ?_, ?_, ?_, ?_⟩
    · intro f hf
      simp [Peer.handleResponseError, ht, hf]
    · intro hf
      simp [Peer.handleResponseError, ht, hf]
    · simp [Peer.handleResponseError, ht, Transcations.delete]
    · intro j hj
      simp [Peer.handleResponseError, ht, Transcations.delete, hj]
    · intro ch hch
      cases hf : t.reject with
      | none => simp [Peer.handleResponseError, ht, hf, Effect.sentOn, Ne.symm hch]
      | some f => simp [Peer.handleResponseError, ht, hf, Effect.sentOn]
    · simp [Peer.handleResponseError, ht]

theorem Peer.response_correlation_witness :
    pendingPeer.transcations 5 = some ⟨5, none, none, 9⟩ ∧
      (pendingPeer.handleResponse ⟨true, 5, true, .json (.bool true)⟩).2 =
        [Effect.send 9 ⟨.json (.bool true), none⟩] :=
  ⟨rfl, ((Peer.response_correlation pendingPeer ⟨5, none, none, 9⟩ 5 rfl).1
    ⟨true, 5, true, .json (.bool true)⟩ rfl).2.1 rfl⟩

/-! ## Request -/

theorem GenerateRandomNumber_bounds (draw : Nat) :
    1000000 ≤ GenerateRandomNumber draw ∧ GenerateRandomNumber draw ≤ 9999998 := by
  have h0 : (0 : Int) ≤ (draw : Int) % 8999999 := Int.emod_nonneg _ (by norm_num)
  have h1 : (draw : Int) % 8999999 < 8999999 := Int.emod_lt_of_pos _ (by norm_num)
  simp only [GenerateRandomNumber, RandInt]
  norm_num
  constructor <;> omega

theorem Peer.sendRequest_ok (peer : Peer) (req : SendRequestData) (str : Bytes)
    (h : req.request.Marshal = .ok str) :
    peer.sendRequest req =
      { peer with
        transcations := peer.transcations.store req.request.id req.transcation,
        transport := { peer.transport with SendCh := peer.transport.SendCh ++ [str] } } := by
  simp [Peer.sendRequest, h, Peer.send]

/-- C6, as the code has it. A request made by `Request` with encodable data
is queued with the transaction `(id, onAccept, onReject, resChan)`, and
`sendRequest` stores that transaction under `id`. While it is stored there,
a response-ok is delivered by calling `onAccept` when `onAccept` is not nil,
and then nothing is sent on the returned channel; otherwise `ResultFuture{data,
nil}` is sent on it, once. A response-error is delivered by calling `onReject`
when `onReject` is not nil, and then nothing is sent on the returned channel;
otherwise `ResultFuture{nil, PeerErr}` is sent on it, once. Each kind of
response looks at its own callback only. -/
theorem Peer.callback_mode_delivery (peer : Peer) (draw : Nat) (resChan : ResultChan)
    (method : String) (doc : Json) (success : Option AcceptFunc)
    (reject : Option RejectFunc) :
    (peer.Request draw resChan method (.encodable doc) success reject).resChan = resChan ∧
    (peer.Request draw resChan method (.encodable doc) success reject).peer.SendRequest =
      peer.SendRequest ++
        [⟨⟨true, GenerateRandomNumber draw, method, .json doc⟩,
          ⟨GenerateRandomNumber draw, success, reject, resChan⟩⟩] ∧
    (∀ p : Peer,
      (p.sendRequest
        ⟨⟨true, GenerateRandomNumber draw, method, .json doc⟩,
          ⟨GenerateRandomNumber draw, success, reject, resChan⟩⟩).transcations
            (GenerateRandomNumber draw) =
        some ⟨GenerateRandomNumber draw, success, reject, resChan⟩) ∧
    (∀ q : Peer,
      q.transcations (GenerateRandomNumber draw) =
        some ⟨GenerateRandomNumber draw, success, reject, resChan⟩ →
      (∀ response : Response, response.id = GenerateRandomNumber draw →
        (∀ f, success = some f →
          (q.handleResponse response).2 = [Effect.accept f response.data] ∧
            Effect.sentOn resChan (q.handleResponse response).2 = []) ∧
        (success = none →
          (q.handleResponse response).2 = [Effect.send resChan ⟨response.data, none⟩] ∧
            Effect.sentOn resChan (q.handleResponse response).2 =
              [⟨response.data, none⟩])) ∧
      (∀ response : ResponseError, response.id = GenerateRandomNumber draw →
        (∀ f, reject = some f →
          (q.handleResponseError response).2 =
              [Effect.reject f response.errorCode response.errorReason] ∧
            Effect.sentOn resChan (q.handleResponseError response).2 = []) ∧
        (reject = none →
          (q.handleResponseError response).2 =
              [Effect.send resChan
                ⟨Bytes.nil, some ⟨response.errorCode, response.errorReason⟩⟩] ∧
            Effect.sentOn resChan (q.handleResponseError response).2 =
              [⟨Bytes.nil, some ⟨response.errorCode, response.errorReason⟩⟩]))) := by
  refine ⟨?_, ?_, ?_, ?_⟩
  · simp [Peer.Request, Marshal]
  · simp [Peer.Request, Marshal]
  · intro p
    simp [Peer.sendRequest, Request.Marshal, rawField, Peer.send, Transcations.store]
  · intro q hq
    constructor
    · intro response hid
      rw [← hid] at hq
      constructor
      · intro f hf
        simp [Peer.handleResponse, hq, hf, Effect.sentOn]
      · intro hf
        simp [Peer.handleResponse, hq, hf, Effect.sentOn]
    · intro response hid
      rw [← hid] at hq
      constructor
      · intro f hf
        simp [Peer.handleResponseError, hq, hf, Effect.sentOn]
      · intro hf
        simp [Peer.handleResponseError, hq, hf, Effect.sentOn]

theorem Peer.callback_mode_delivery_witness :
    callbackPeer.transcations (GenerateRandomNumber 0) =
        some ⟨GenerateRandomNumber 0, some 1, none, 7⟩ ∧
      (callbackPeer.handleResponse ⟨true, GenerateRandomNumber 0, true, .json .null⟩).2 =
          [Effect.accept 1 (.json .null)] ∧
      Effect.sentOn 7
          (callbackPeer.handleResponse
            ⟨true, GenerateRandomNumber 0, true, .json .null⟩).2 = [] :=
  ⟨rfl, (((Peer.callback_mode_delivery examplePeer 0 7 "m" .null (some 1) none).2.2.2
    callbackPeer rfl).1 ⟨true, GenerateRandomNumber 0, true, .json .null⟩ rfl).1 1 rfl⟩

/-- C6 as stated fails: a request made with an accept callback supplied (and
no reject callback) gets a response-error; the error is then sent on the
channel `Request` returned. -/
theorem Peer.callback_mode_counterexample :
    callbackRequested.resChan = 7 ∧
      callbackPeer.transcations 1000000 = some ⟨1000000, some 1, none, 7⟩ ∧
      Effect.sentOn callbackRequested.resChan
          (callbackPeer.handleResponseError ⟨true, 1000000, false, 404, "not found"⟩).2 =
        [⟨Bytes.nil, some ⟨404, "not found"⟩⟩] :=
  ⟨rfl, rfl, rfl⟩

/-- C7. Request serialization: when `json.Marshal(data)` fails with message
`err`, `Request` returns the channel it made with exactly one value on it,
`ResultFuture{nil, &PeerErr{10, err}}`, and leaves the peer as it was: nothing
is queued on `SendRequest` or on the transport's send queue and the
transaction table is untouched. When it succeeds with bytes `dataStr`,
exactly one `SendRequestData` is queued; its request has `request = true`,
the given method, `dataStr` as data and the id of its transaction, the
transaction carries the callbacks and the returned channel, nothing is sent
on the returned channel, and nothing else of the peer changes. -/
theorem Peer.Request_serialization (peer : Peer) (draw : Nat) (resChan : ResultChan)
    (method : String) (data : GoValue) (success : Option AcceptFunc)
    (reject : Option RejectFunc) :
    (∀ err, Marshal data = .error err →
      (peer.Request draw resChan method data success reject).resChan = resChan ∧
      (peer.Request draw resChan method data success reject).effects =
        [Effect.send resChan ⟨Bytes.nil, some ⟨10, err⟩⟩] ∧
      Effect.sentOn resChan (peer.Request draw resChan method data success reject).effects =
        [⟨Bytes.nil, some ⟨10, err⟩⟩] ∧
      (peer.Request draw resChan method data success reject).peer = peer) ∧
    (∀ dataStr, Marshal data = .ok dataStr →
      (peer.Request draw resChan method data success reject).resChan = resChan ∧
      (peer.Request draw resChan method data success reject).effects = [] ∧
      Effect.sentOn resChan (peer.Request draw resChan method data success reject).effects =
        [] ∧
      (∃ d : SendRequestData,
        (peer.Request draw resChan method data success reject).peer.SendRequest =
          peer.SendRequest ++ [d] ∧
        d.request.request = true ∧ d.request.method = method ∧ d.request.data = dataStr ∧
        d.request.id = d.transcation.id ∧ d.request.id = GenerateRandomNumber draw ∧
        d.transcation.accept = success ∧ d.transcation.reject = reject ∧
        d.transcation.resultChan = resChan) ∧
      { (peer.Request draw resChan method data success reject).peer with
        SendRequest := peer.SendRequest } = peer) := by
  constructor
  · intro err h
    simp [Peer.Request, h, Effect.sentOn]
  · intro dataStr h
    simp [Peer.Request, h, Effect.sentOn]

theorem Peer.Request_serialization_witness :
    Marshal (.unencodable "json: unsupported type: chan int") =
        .error "json: unsupported type: chan int" ∧
      Effect.sentOn 7
          (examplePeer.Request 0 7 "m" (.unencodable "json: unsupported type: chan int")
            none none).effects =
        [⟨Bytes.nil, some ⟨10, "json: unsupported type: chan int"⟩⟩] ∧
      (examplePeer.Request 0 7 "m" (.unencodable "json: unsupported type: chan int")
        none none).peer = examplePeer :=
  ⟨rfl,
    ((Peer.Request_serialization examplePeer 0 7 "m"
      (.unencodable "json: unsupported type: chan int") none none).1 _ rfl).2.2.1,
    ((Peer.Request_serialization examplePeer 0 7 "m"
      (.unencodable "json: unsupported type: chan int") none none).1 _ rfl).2.2.2⟩

/-- C9, as the code has it. For every outcome of the random source the id
`GenerateRandomNumber` produces is `RandInt(1000000, 9999999)`, an integer
from 1000000 to 9999998 and so positive, and it is the id of the request
`Request` queues. `sendRequest` stores the transaction under the id of its
request without looking at what is stored there: afterwards that id holds
the new transaction and every other id holds what it held before. So no
pending transaction is replaced when the id is not outstanding. -/
theorem Peer.request_id_registration (draw : Nat) :
    GenerateRandomNumber draw = RandInt draw 1000000 9999999 ∧
    0 < GenerateRandomNumber draw ∧
    1000000 ≤ GenerateRandomNumber draw ∧ GenerateRandomNumber draw ≤ 9999998 ∧
    (∀ (peer : Peer) (resChan : ResultChan) (method : String) (doc : Json)
        (success : Option AcceptFunc) (reject : Option RejectFunc),
      ∃ d : SendRequestData,
        (peer.Request draw resChan method (.encodable doc) success reject).peer.SendRequest =
          peer.SendRequest ++ [d] ∧
        d.request.id = GenerateRandomNumber draw ∧
        d.transcation.id = GenerateRandomNumber draw) ∧
    (∀ (peer : Peer) (req : SendRequestData) (str : Bytes),
      req.request.Marshal = .ok str →
      (peer.sendRequest req).transcations req.request.id = some req.transcation ∧
      (∀ j, j ≠ req.request.id →
        (peer.sendRequest req).transcations j = peer.transcations j) ∧
      (peer.transcations req.request.id = none →
        ∀ j t, peer.transcations j = some t →
          (peer.sendRequest req).transcations j = some t)) := by
  obtain ⟨hlo, hhi⟩ := GenerateRandomNumber_bounds draw
  refine ⟨rfl, by omega, hlo, hhi, ?_, ?_⟩
  · intro peer resChan method doc success reject
    simp [Peer.Request, Marshal]
  · intro peer req str h
    rw [Peer.sendRequest_ok peer req str h]
    refine ⟨by simp [Transcations.store], ?_, ?_⟩
    · intro j hj
      simp [Transcations.store, hj]
    · intro hnone j t hj
      have hne : j ≠ req.request.id := by
        intro hEq
        rw [hEq, hnone] at hj
        cases hj
      simp [Transcations.store, hne, hj]

theorem Peer.request_id_registration_witness :
    Request.Marshal ⟨true, 1000005, "m", .json .null⟩ =
        .ok (.json (.obj [("request", .bool true), ("id", .num 1000005),
          ("method", .str "m"), ("data", .null)])) ∧
      (examplePeer.sendRequest
        ⟨⟨true, 1000005, "m", .json .null⟩,
          ⟨1000005, none, none, 1⟩⟩).transcations 1000005 =
        some ⟨1000005, none, none, 1⟩ :=
  ⟨rfl, ((Peer.request_id_registration 5).2.2.2.2.2 examplePeer
    ⟨⟨true, 1000005, "m", .json .null⟩, ⟨1000005, none, none, 1⟩⟩ _ rfl).1⟩

/-- C9 as stated fails: two requests on one peer for which the random source
gives the same draw get the same id, 1000005. When the second is registered
the first is still outstanding under that id, and the registration replaces
it: the table then holds the second transaction (channel 2), not the first
(channel 1). -/
theorem Peer.request_id_counterexample :
    GenerateRandomNumber 5 = 1000005 ∧
      (collidingRequested.peer.Run [.SendRequest]).1.transcations 1000005 =
        some ⟨1000005, none, none, 1⟩ ∧
      ((collidingRequested.peer.Run [.SendRequest]).1.SendRequest.map
        (fun d => d.request.id)) = [1000005] ∧
      (collidingRequested.peer.Run [.SendRequest, .SendRequest]).1.transcations 1000005 =
        some ⟨1000005, none, none, 2⟩ :=
  ⟨rfl, rfl, rfl, rfl⟩

/-! ## Message dispatch and the envelope -/

theorem fieldOf_tags_PeerMsg :
    fieldOf PeerMsg.tags "request" = some "request" ∧
      fieldOf PeerMsg.tags "response" = some "response" ∧
      fieldOf PeerMsg.tags "ok" = some "ok" ∧
      fieldOf PeerMsg.tags "notification" = some "notification" ∧
      fieldOf PeerMsg.tags "id" = none ∧
      fieldOf PeerMsg.tags "method" = none ∧
      fieldOf PeerMsg.tags "data" = none ∧
      fieldOf PeerMsg.tags "errorCode" = none ∧
      fieldOf PeerMsg.tags "errorReason" = none := by
  decide

theorem fieldOf_tags_Request :
    fieldOf Request.tags "request" = some "request" ∧
      fieldOf Request.tags "id" = some "id" ∧
      fieldOf Request.tags "method" = some "method" ∧
      fieldOf Request.tags "data" = some "data" := by
  decide

theorem fieldOf_tags_Response :
    fieldOf Response.tags "response" = some "response" ∧
      fieldOf Response.tags "id" = some "id" ∧
      fieldOf Response.tags "ok" = some "ok" ∧
      fieldOf Response.tags "data" = some "data" := by
  decide

theorem fieldOf_tags_ResponseError :
    fieldOf ResponseError.tags "response" = some "response" ∧
      fieldOf ResponseError.tags "id" = some "id" ∧
      fieldOf ResponseError.tags "ok" = some "ok" ∧
      fieldOf ResponseError.tags "errorCode" = some "errorCode" ∧
      fieldOf ResponseError.tags "errorReason" = some "errorReason" := by
  decide

theorem fieldOf_tags_Notification :
    fieldOf Notification.tags "notification" = some "notification" ∧
      fieldOf Notification.tags "method" = some "method" ∧
      fieldOf Notification.tags "data" = some "data" := by
  decide

/-- C8. Message dispatch: `handleMessage` decodes the discriminators and
hands the frame to one handler. With `request` true it is `handleRequest`;
else with `response` true it is `handleResponse` when `ok` is true and
`handleResponseError` when `ok` is false; else with `notification` true it is
`handleNotification`; each gets the frame decoded into its own shape. When
the discriminator decode fails (bytes that are not JSON among them), when
the shape decode fails, or when none of `request`, `response` and
`notification` is true, no handler runs: the peer (table, `OnRequest`,
`OnNotification`, send queue) is as it was and nothing is delivered. -/
theorem Peer.handleMessage_dispatch (peer : Peer) (message : Bytes) :
    (PeerMsg.Unmarshal message = none → peer.handleMessage message = (peer, [])) ∧
    (∀ msg, PeerMsg.Unmarshal message = some msg →
      (msg.request = true →
        (∀ data, Request.Unmarshal message = some data →
          peer.handleMessage message = peer.handleRequest data) ∧
        (Request.Unmarshal message = none → peer.handleMessage message = (peer, []))) ∧
      (msg.request = false → msg.response = true → msg.ok = true →
        (∀ data, Response.Unmarshal message = some data →
          peer.handleMessage message = peer.handleResponse data) ∧
        (Response.Unmarshal message = none → peer.handleMessage message = (peer, []))) ∧
      (msg.request = false → msg.response = true → msg.ok = false →
        (∀ data, ResponseError.Unmarshal message = some data →
          peer.handleMessage message = peer.handleResponseError data) ∧
        (ResponseError.Unmarshal message = none →
          peer.handleMessage message = (peer, []))) ∧
      (msg.request = false → msg.response = false → msg.notification = true →
        (∀ data, Notification.Unmarshal message = some data →
          peer.handleMessage message = peer.handleNotification data) ∧
        (Notification.Unmarshal message = none →
          peer.handleMessage message = (peer, []))) ∧
      (msg.request = false → msg.response = false → msg.notification = false →
        peer.handleMessage message = (peer, []))) ∧
    (∀ raw, peer.handleMessage (.malformed raw) = (peer, [])) ∧
    peer.handleMessage .nil = (peer, []) := by
  refine ⟨?_, ?_, ?_, ?_⟩
  · intro h
    simp [Peer.handleMessage, h]
  · intro msg h
    refine ⟨?_, ?_, ?_, ?_, ?_⟩
    · intro h1
      constructor
      · intro data hd
        simp [Peer.handleMessage, h, h1, hd]
      · intro hd
        simp [Peer.handleMessage, h, h1, hd]
    · intro h1 h2 h3
      constructor
      · intro data hd
        simp [Peer.handleMessage, h, h1, h2, h3, hd]
      · intro hd
        simp [Peer.handleMessage, h, h1, h2, h3, hd]
    · intro h1 h2 h3
      constructor
      · intro data hd
        simp [Peer.handleMessage, h, h1, h2, h3, hd]
      · intro hd
        simp [Peer.handleMessage, h, h1, h2, h3, hd]
    · intro h1 h2 h3
      constructor
      · intro data hd
        simp [Peer.handleMessage, h, h1, h2, h3, hd]
      · intro hd
        simp [Peer.handleMessage, h, h1, h2, h3, hd]
    · intro h1 h2 h3
      simp [Peer.handleMessage, h, h1, h2, h3]
  · intro raw
    simp [Peer.handleMessage, PeerMsg.Unmarshal, unmarshalStruct]
  · simp [Peer.handleMessage, PeerMsg.Unmarshal, unmarshalStruct]

theorem Peer.handleMessage_dispatch_witness :
    PeerMsg.Unmarshal exampleNotification = some ⟨false, false, false, true⟩ ∧
      Notification.Unmarshal exampleNotification =
        some ⟨true, "update", .json (.obj [("x", .num 1)])⟩ ∧
      examplePeer.handleMessage exampleNotification =
        examplePeer.handleNotification ⟨true, "update", .json (.obj [("x", .num 1)])⟩ :=
  ⟨rfl, rfl,
    (((Peer.handleMessage_dispatch examplePeer exampleNotification).2.1
      ⟨false, false, false, true⟩ rfl).2.2.2.1 rfl rfl rfl).1 _ rfl⟩

theorem Request.roundtrip_request (m : Request) (doc : Json)
    (hd : rawField m.data = .ok doc) (hlo : minInt ≤ m.id) (hhi : m.id ≤ maxInt) :
    ∃ bytes, m.Marshal = .ok bytes ∧
      Request.Unmarshal bytes = some { m with data := .json doc } ∧
      PeerMsg.Unmarshal bytes = some ⟨m.request, false, false, false⟩ := by
  obtain ⟨t1, t2, t3, t4⟩ := fieldOf_tags_Request
  obtain ⟨p1, _, _, _, p5, p6, p7, _, _⟩ := fieldOf_tags_PeerMsg
  have hm : m.Marshal = .ok (.json (.obj [("request", .bool m.request), ("id", .num m.id),
        ("method", .str m.method), ("data", doc)])) := by
    simp only [Request.Marshal, hd]
  refine ⟨_, hm, ?_, ?_⟩
  · simp [Request.Unmarshal, unmarshalStruct, t1, t2, t3, t4, Request.store,
      setBool, setInt, setString, setRaw, Request.zero, hlo, hhi, List.foldlM]
  · simp [PeerMsg.Unmarshal, unmarshalStruct, p1, p5, p6, p7, PeerMsg.store,
      setBool, PeerMsg.zero, List.foldlM]

theorem Response.roundtrip_response (m : Response) (doc : Json)
    (hd : rawField m.data = .ok doc) (hlo : minInt ≤ m.id) (hhi : m.id ≤ maxInt) :
    ∃ bytes, m.Marshal = .ok bytes ∧
      Response.Unmarshal bytes = some { m with data := .json doc } ∧
      PeerMsg.Unmarshal bytes = some ⟨false, m.response, m.ok, false⟩ := by
  obtain ⟨t1, t2, t3, t4⟩ := fieldOf_tags_Response
  obtain ⟨_, p2, p3, _, p5, _, p7, _, _⟩ := fieldOf_tags_PeerMsg
  have hm : m.Marshal = .ok (.json (.obj [("response", .bool m.response), ("id", .num m.id),
        ("ok", .bool m.ok), ("data", doc)])) := by
    simp only [Response.Marshal, hd]
  refine ⟨_, hm, ?_, ?_⟩
  · simp [Response.Unmarshal, unmarshalStruct, t1, t2, t3, t4, Response.store,
      setBool, setInt, setRaw, Response.zero, hlo, hhi, List.foldlM]
  · simp [PeerMsg.Unmarshal, unmarshalStruct, p2, p3, p5, p7, PeerMsg.store,
      setBool, PeerMsg.zero, List.foldlM]

theorem ResponseError.roundtrip_responseError (m : ResponseError)
    (hlo : minInt ≤ m.id) (hhi : m.id ≤ maxInt)
    (hclo : minInt ≤ m.errorCode) (hchi : m.errorCode ≤ maxInt) :
    ∃ bytes, m.Marshal = .ok bytes ∧ ResponseError.Unmarshal bytes = some m ∧
      PeerMsg.Unmarshal bytes = some ⟨false, m.response, m.ok, false⟩ := by
  obtain ⟨t1, t2, t3, t4, t5⟩ := fieldOf_tags_ResponseError
  obtain ⟨_, p2, p3, _, p5, _, _, p8, p9⟩ := fieldOf_tags_PeerMsg
  refine ⟨_, rfl, ?_, ?_⟩
  · simp [ResponseError.Unmarshal, unmarshalStruct, t1, t2, t3, t4, t5,
      ResponseError.store, setBool, setInt, setString, ResponseError.zero, hlo, hhi,
      hclo, hchi, List.foldlM]
  · simp [PeerMsg.Unmarshal, unmarshalStruct, p2, p3, p5, p8, p9, PeerMsg.store,
      setBool, PeerMsg.zero, List.foldlM]

theorem Notification.roundtrip_notification (m : Notification) (doc : Json)
    (hd : rawField m.data = .ok doc) :
    ∃ bytes, m.Marshal = .ok bytes ∧
      Notification.Unmarshal bytes = some { m with data := .json doc } ∧
      PeerMsg.Unmarshal bytes = some ⟨false, false, false, m.notification⟩ := by
  obtain ⟨t1, t2, t3⟩ := fieldOf_tags_Notification
  obtain ⟨_, _, _, p4, _, p6, p7, _, _⟩ := fieldOf_tags_PeerMsg
  have hm : m.Marshal = .ok (.json (.obj [("notification", .bool m.notification),
        ("method", .str m.method), ("data", doc)])) := by
    simp only [Notification.Marshal, hd]
  refine ⟨_, hm, ?_, ?_⟩
  · simp [Notification.Unmarshal, unmarshalStruct, t1, t2, t3, Notification.store,
      setBool, setString, setRaw, Notification.zero, List.foldlM]
  · simp [PeerMsg.Unmarshal, unmarshalStruct, p4, p6, p7, PeerMsg.store,
      setBool, PeerMsg.zero, List.foldlM]

/-- C5, as the code has it. Round-trip envelope, for the values that
`json.Marshal` writes back as they are: take a value of one of the four
message structs whose data (where the struct has data) is JSON text, whose
strings are valid UTF-8 and whose numbers are Go `int`s. Then `json.Marshal`
gives bytes, and decoding them into the same struct gives the original value,
equal in every field (discriminators, id, method, data, error code and
reason). The discriminator-only decode of those bytes reads the value's own
discriminators, so when they are those of the shape (`request` true;
`response` true with `ok` true; `response` true with `ok` false;
`notification` true) `handleMessage` selects the handler of that shape and
passes it the original value. For the other values of data: nil data is
written as `null` and comes back as the text `null`, every other field as it
was; data that is not JSON text is not encoded at all, `json.Marshal`
fails. -/
theorem envelope_roundtrip :
    (∀ (m : Request) (d : Json), m.data = .json d → minInt ≤ m.id → m.id ≤ maxInt →
      ∃ bytes, m.Marshal = .ok bytes ∧ Request.Unmarshal bytes = some m ∧
        PeerMsg.Unmarshal bytes = some ⟨m.request, false, false, false⟩ ∧
        (m.request = true →
          ∀ peer : Peer, peer.handleMessage bytes = peer.handleRequest m)) ∧
    (∀ (m : Response) (d : Json), m.data = .json d → minInt ≤ m.id → m.id ≤ maxInt →
      ∃ bytes, m.Marshal = .ok bytes ∧ Response.Unmarshal bytes = some m ∧
        PeerMsg.Unmarshal bytes = some ⟨false, m.response, m.ok, false⟩ ∧
        (m.response = true → m.ok = true →
          ∀ peer : Peer, peer.handleMessage bytes = peer.handleResponse m)) ∧
    (∀ m : ResponseError, minInt ≤ m.id → m.id ≤ maxInt →
      minInt ≤ m.errorCode → m.errorCode ≤ maxInt →
      ∃ bytes, m.Marshal = .ok bytes ∧ ResponseError.Unmarshal bytes = some m ∧
        PeerMsg.Unmarshal bytes = some ⟨false, m.response, m.ok, false⟩ ∧
        (m.response = true → m.ok = false →
          ∀ peer : Peer, peer.handleMessage bytes = peer.handleResponseError m)) ∧
    (∀ (m : Notification) (d : Json), m.data = .json d →
      ∃ bytes, m.Marshal = .ok bytes ∧ Notification.Unmarshal bytes = some m ∧
        PeerMsg.Unmarshal bytes = some ⟨false, false, false, m.notification⟩ ∧
        (m.notification = true →
          ∀ peer : Peer, peer.handleMessage bytes = peer.handleNotification m)) ∧
    (∀ m : Request, m.data = .nil → minInt ≤ m.id → m.id ≤ maxInt →
      ∃ bytes, m.Marshal = .ok bytes ∧
        Request.Unmarshal bytes = some { m with data := .json .null }) ∧
    (∀ m : Response, m.data = .nil → minInt ≤ m.id → m.id ≤ maxInt →
      ∃ bytes, m.Marshal = .ok bytes ∧
        Response.Unmarshal bytes = some { m with data := .json .null }) ∧
    (∀ m : Notification, m.data = .nil →
      ∃ bytes, m.Marshal = .ok bytes ∧
        Notification.Unmarshal bytes = some { m with data := .json .null }) ∧
    (∀ (m : Request) (raw : List Nat), m.data = .malformed raw →
      ∃ err, m.Marshal = .error err) ∧
    (∀ (m : Response) (raw : List Nat), m.data = .malformed raw →
      ∃ err, m.Marshal = .error err) ∧
    (∀ (m : Notification) (raw : List Nat), m.data = .malformed raw →
      ∃ err, m.Marshal = .error err) := by
  refine ⟨?_, ?_, ?_, ?_, ?_, ?_, ?_, ?_, ?_, ?_⟩
  · intro m d hd hlo hhi
    obtain ⟨bytes, hm, hu, hp⟩ :=
      Request.roundtrip_request m d (by rw [hd]; rfl) hlo hhi
    rw [← hd] at hu
    have hu : Request.Unmarshal bytes = some m := hu
    refine ⟨bytes, hm, hu, hp, ?_⟩
    intro h peer
    simp [Peer.handleMessage, hp, hu, h]
  · intro m d hd hlo hhi
    obtain ⟨bytes, hm, hu, hp⟩ :=
      Response.roundtrip_response m d (by rw [hd]; rfl) hlo hhi
    rw [← hd] at hu
    have hu : Response.Unmarshal bytes = some m := hu
    refine ⟨bytes, hm, hu, hp, ?_⟩
    intro h1 h2 peer
    simp [Peer.handleMessage, hp, hu, h1, h2]
  · intro m hlo hhi hclo hchi
    obtain ⟨bytes, hm, hu, hp⟩ := ResponseError.roundtrip_responseError m hlo hhi hclo hchi
    refine ⟨bytes, hm, hu, hp, ?_⟩
    intro h1 h2 peer
    simp [Peer.handleMessage, hp, hu, h1, h2]
  · intro m d hd
    obtain ⟨bytes, hm, hu, hp⟩ :=
      Notification.roundtrip_notification m d (by rw [hd]; rfl)
    rw [← hd] at hu
    have hu : Notification.Unmarshal bytes = some m := hu
    refine ⟨bytes, hm, hu, hp, ?_⟩
    intro h peer
    simp [Peer.handleMessage, hp, hu, h]
  · intro m hd hlo hhi
    obtain ⟨bytes, hm, hu, _⟩ :=
      Request.roundtrip_request m .null (by rw [hd]; rfl) hlo hhi
    exact ⟨bytes, hm, hu⟩
  · intro m hd hlo hhi
    obtain ⟨bytes, hm, hu, _⟩ :=
      Response.roundtrip_response m .null (by rw [hd]; rfl) hlo hhi
    exact ⟨bytes, hm, hu⟩
  · intro m hd
    obtain ⟨bytes, hm, hu, _⟩ :=
      Notification.roundtrip_notification m .null (by rw [hd]; rfl)
    exact ⟨bytes, hm, hu⟩
  · intro m raw hd
    exact ⟨"json: error calling MarshalJSON for type json.RawMessage",
      by simp only [Request.Marshal, hd, rawField]⟩
  · intro m raw hd
    exact ⟨"json: error calling MarshalJSON for type json.RawMessage",
      by simp only [Response.Marshal, hd, rawField]⟩
  · intro m raw hd
    exact ⟨"json: error calling MarshalJSON for type json.RawMessage",
      by simp only [Notification.Marshal, hd, rawField]⟩

theorem envelope_roundtrip_witness :
    exampleRequest.data = .json (.obj [("pong", .bool true)]) ∧
      minInt ≤ exampleRequest.id ∧ exampleRequest.id ≤ maxInt ∧
      ∃ bytes, exampleRequest.Marshal = .ok bytes ∧
        Request.Unmarshal bytes = some exampleRequest ∧
        PeerMsg.Unmarshal bytes = some ⟨true, false, false, false⟩ :=
  ⟨rfl, by norm_num [minInt, exampleRequest], by norm_num [maxInt, exampleRequest],
    (envelope_roundtrip.1 exampleRequest _ rfl (by norm_num [minInt, exampleRequest])
      (by norm_num [maxInt, exampleRequest])).imp
      (fun _ h => ⟨h.1, h.2.1, h.2.2.1⟩)⟩

/-- C5 as stated fails, on two values of the message structs. The response
that `handleMessage` decodes from a frame without a `data` member has nil
data; `json.Marshal` writes it with `"data":null`, and decoding those bytes
gives data that is the text `null`, not nil: the value that comes back is
not the original. And a request whose data is the one byte `{`, which is
not JSON text, is not encoded at all: `json.Marshal` returns an error. -/
theorem envelope_roundtrip_counterexample :
    Response.Unmarshal frameWithoutData = some nilDataResponse ∧
      nilDataResponse.Marshal = .ok nilDataResponseBytes ∧
      Response.Unmarshal nilDataResponseBytes =
        some { nilDataResponse with data := .json .null } ∧
      ({ nilDataResponse with data := .json .null } : Response) ≠ nilDataResponse ∧
      Request.Marshal ⟨true, 1000005, "ping", .malformed [123]⟩ =
        .error "json: error calling MarshalJSON for type json.RawMessage" := by
  refine ⟨rfl, rfl, rfl, ?_, rfl⟩
  intro h
  have hdata := congrArg Response.data h
  simp [nilDataResponse] at hdata

/-! ## Transport shutdown -/

theorem once_append {α : Type} (a b c : Bool) (l : List α) (x : α) :
    (l ++ if !a && b then [x] else []) ++ (if !(a || b) && c then [x] else []) =
      l ++ if !a && (b || c) then [x] else [] := by
  cases a <;> cases b <;> cases c <;> simp

theorem once_add (a b c : Bool) (n : Nat) :
    (n + if !a && b then 1 else 0) + (if !(a || b) && c then 1 else 0) =
      n + if !a && (b || c) then 1 else 0 := by
  cases a <;> cases b <;> cases c <;> simp

theorem TransportCall.run_flags (c : TransportCall) (t : WebSocketTransport) :
    (c.run t).shutdown = (t.shutdown || c.isStop) ∧
      (c.run t).closed = (t.closed || c.isClose) ∧
      (c.run t).tErr = t.tErr := by
  cases c <;> cases hs : t.shutdown <;> cases hc : t.closed <;> cases he : t.tErr <;>
    simp [TransportCall.run, WebSocketTransport.Close, WebSocketTransport.Stop,
      WebSocketTransport.close, TransportCall.isStop, TransportCall.isClose, hs, hc, he]

theorem TransportCall.run_record (c : TransportCall) (t : WebSocketTransport) :
    (c.run t).stop = t.stop ++ (if !t.shutdown && c.isStop then [true] else []) ∧
      (c.run t).socket.closeCalls =
        t.socket.closeCalls + (if !t.closed && c.isClose then 1 else 0) ∧
      (c.run t).OnClose =
        t.OnClose ++
          (if !t.closed && c.isClose then [t.tErr.getD ⟨100, "Closed"⟩] else []) := by
  cases c <;> cases hs : t.shutdown <;> cases hc : t.closed <;> cases he : t.tErr <;>
    simp [TransportCall.run, WebSocketTransport.Close, WebSocketTransport.Stop,
      WebSocketTransport.close, TransportCall.isStop, TransportCall.isClose, hs, hc, he]

theorem WebSocketTransport.runCalls_flags (calls : List TransportCall) :
    ∀ t : WebSocketTransport,
      (t.runCalls calls).shutdown = (t.shutdown || calls.any TransportCall.isStop) ∧
        (t.runCalls calls).closed = (t.closed || calls.any TransportCall.isClose) ∧
        (t.runCalls calls).tErr = t.tErr := by
  induction calls with
  | nil => intro t; simp [WebSocketTransport.runCalls]
  | cons c rest ih =>
    intro t
    obtain ⟨h1, h2, h3⟩ := TransportCall.run_flags c t
    obtain ⟨i1, i2, i3⟩ := ih (c.run t)
    simp only [WebSocketTransport.runCalls, List.foldl_cons] at i1 i2 i3 ⊢
    rw [i1, i2, i3, h1, h2, h3]
    simp [Bool.or_assoc]

theorem WebSocketTransport.runCalls_record (calls : List TransportCall) :
    ∀ t : WebSocketTransport,
      (t.runCalls calls).stop =
          t.stop ++ (if !t.shutdown && calls.any TransportCall.isStop then [true] else []) ∧
        (t.runCalls calls).socket.closeCalls =
          t.socket.closeCalls +
            (if !t.closed && calls.any TransportCall.isClose then 1 else 0) ∧
        (t.runCalls calls).OnClose =
          t.OnClose ++
            (if !t.closed && calls.any TransportCall.isClose then
              [t.tErr.getD ⟨100, "Closed"⟩] else []) := by
  induction calls with
  | nil => intro t; simp [WebSocketTransport.runCalls]
  | cons c rest ih =>
    intro t
    obtain ⟨h1, h2, h3⟩ := TransportCall.run_flags c t
    obtain ⟨r1, r2, r3⟩ := TransportCall.run_record c t
    obtain ⟨i1, i2, i3⟩ := ih (c.run t)
    simp only [WebSocketTransport.runCalls, List.foldl_cons] at i1 i2 i3 ⊢
    rw [i1, i2, i3, h1, h2, h3, r1, r2, r3]
    simp only [List.any_cons]
    exact ⟨once_append _ _ _ _ _, once_add _ _ _ _, once_append _ _ _ _ _⟩

/-- C4. Idempotent shutdown: run any sequence of calls of `Close()`,
`Stop()` and the internal `close()` on a newly constructed transport. If
the sequence has at least one `Close()` or `Stop()`, exactly one stop signal
is on the stop channel and the shutdown flag is true afterwards. If it has
at least one `close()`, the socket was closed exactly once, exactly one value
was emitted on `OnClose`, and the closed flag is true. A `Stop()` or
`Close()` on a transport already shut down, and a `close()` on a transport
already closed, change nothing. -/
theorem WebSocketTransport.shutdown_idempotent (socket : Conn)
    (calls : List TransportCall) :
    ((TransportCall.Close ∈ calls ∨ TransportCall.Stop ∈ calls) →
      ((NewWebSocketTransport socket).runCalls calls).stop = [true] ∧
      ((NewWebSocketTransport socket).runCalls calls).shutdown = true) ∧
    (TransportCall.close ∈ calls →
      ((NewWebSocketTransport socket).runCalls calls).socket.closeCalls =
        socket.closeCalls + 1 ∧
      ((NewWebSocketTransport socket).runCalls calls).OnClose.length = 1 ∧
      ((NewWebSocketTransport socket).runCalls calls).closed = true) ∧
    (∀ t : WebSocketTransport, t.shutdown = true → t.Stop = t ∧ t.Close = t) ∧
    (∀ t : WebSocketTransport, t.closed = true → t.close = t) := by
  obtain ⟨f1, f2, _⟩ := WebSocketTransport.runCalls_flags calls (NewWebSocketTransport socket)
  obtain ⟨r1, r2, r3⟩ :=
    WebSocketTransport.runCalls_record calls (NewWebSocketTransport socket)
  refine ⟨?_, ?_, ?_, ?_⟩
  · intro h
    have hany : calls.any TransportCall.isStop = true := by
      rw [List.any_eq_true]
      rcases h with h | h
      · exact ⟨_, h, rfl⟩
      · exact ⟨_, h, rfl⟩
    rw [r1, f1, hany]
    simp [NewWebSocketTransport]
  · intro h
    have hany : calls.any TransportCall.isClose = true := by
      rw [List.any_eq_true]
      exact ⟨_, h, rfl⟩
    rw [r2, r3, f2, hany]
    simp [NewWebSocketTransport]
  · intro t h
    simp [WebSocketTransport.Close, WebSocketTransport.Stop, h]
  · intro t h
    simp [WebSocketTransport.close, h]

theorem WebSocketTransport.shutdown_idempotent_witness :
    (TransportCall.Close ∈ exampleCalls ∨ TransportCall.Stop ∈ exampleCalls) ∧
      TransportCall.close ∈ exampleCalls ∧
      ((NewWebSocketTransport ⟨0, 0⟩).runCalls exampleCalls).stop = [true] ∧
      ((NewWebSocketTransport ⟨0, 0⟩).runCalls exampleCalls).socket.closeCalls = 0 + 1 :=
  ⟨by decide, by decide,
    ((WebSocketTransport.shutdown_idempotent ⟨0, 0⟩ exampleCalls).1 (by decide)).1,
    ((WebSocketTransport.shutdown_idempotent ⟨0, 0⟩ exampleCalls).2.1 (by decide)).1⟩

/-! ## Close reason -/

theorem WebSocketTransport.readLoopBody_closeError (msgs : List Bytes) (code : Int)
    (text : String) :
    ∀ t : WebSocketTransport, t.shutdown = false →
      WebSocketTransport.readLoopBody
          (msgs.map ReadResult.message ++ [ReadResult.closeError code text]) t =
        ({ t with OnMsg := t.OnMsg ++ msgs, tErr := some ⟨code, text⟩ }, true) := by
  induction msgs with
  | nil =>
    intro t _
    simp [WebSocketTransport.readLoopBody]
  | cons m rest ih =>
    intro t h
    have step :
        WebSocketTransport.readLoopBody
            (ReadResult.message m ::
              (rest.map ReadResult.message ++ [ReadResult.closeError code text])) t =
          WebSocketTransport.readLoopBody
            (rest.map ReadResult.message ++ [ReadResult.closeError code text])
            { t with OnMsg := t.OnMsg ++ [m] } := by
      simp [WebSocketTransport.readLoopBody, h]
    simp only [List.map_cons, List.cons_append]
    rw [step, ih _ (by simpa using h)]
    simp

theorem WebSocketTransport.ReadLoop_closeError (t : WebSocketTransport) (msgs : List Bytes)
    (code : Int) (text : String) (h : t.shutdown = false) :
    t.ReadLoop (msgs.map ReadResult.message ++ [ReadResult.closeError code text]) =
      { t with
        socket := { t.socket with readLimit := maxMessageSize },
        OnMsg := t.OnMsg ++ msgs, tErr := some ⟨code, text⟩,
        shutdown := true, stop := t.stop ++ [true] } := by
  have hbody := WebSocketTransport.readLoopBody_closeError msgs code text
    { t with socket := { t.socket with readLimit := maxMessageSize } } (by simpa using h)
  simp only [WebSocketTransport.ReadLoop, hbody]
  simp [WebSocketTransport.Stop, h]

/-- C10. Close reason: on a transport with `closed = false` the close step
emits on `OnClose` exactly the recorded error `tErr` when there is one, and
`TransportErr{100, "Closed"}` otherwise. When a read of the read loop fails
with a WebSocket close error of code `c` and text `s`, the recorded error
becomes `{c, s}` and the transport is stopped, so the close step that follows
emits `{c, s}`. The peer's `handleClose` puts the value it is given, as it
is, on the peer's `OnClose` and leaves the transaction table alone; the peer's
loop hands it the value it receives from the transport's `OnClose`. -/
theorem WebSocketTransport.close_reason :
    (∀ t : WebSocketTransport, t.closed = false →
      (∀ e, t.tErr = some e → t.close.OnClose = t.OnClose ++ [e]) ∧
      (t.tErr = none → t.close.OnClose = t.OnClose ++ [⟨100, "Closed"⟩]) ∧
      t.close.closed = true ∧ t.close.socket.closeCalls = t.socket.closeCalls + 1) ∧
    (∀ (t : WebSocketTransport) (msgs : List Bytes) (c : Int) (s : String),
      t.shutdown = false →
      (t.ReadLoop (msgs.map ReadResult.message ++ [ReadResult.closeError c s])).tErr =
        some ⟨c, s⟩ ∧
      (t.ReadLoop (msgs.map ReadResult.message ++ [ReadResult.closeError c s])).shutdown =
        true ∧
      (t.closed = false →
        (t.ReadLoop
          (msgs.map ReadResult.message ++ [ReadResult.closeError c s])).close.OnClose =
          t.OnClose ++ [⟨c, s⟩])) ∧
    (∀ (peer : Peer) (err : TransportErr),
      (peer.handleClose err).OnClose = peer.OnClose ++ [err] ∧
      (peer.handleClose err).transcations = peer.transcations) ∧
    (∀ (peer : Peer) (err : TransportErr) (rest : List TransportErr),
      peer.transport.OnClose = err :: rest →
      (peer.runCase .OnClose).1.OnClose = peer.OnClose ++ [err] ∧
      (peer.runCase .OnClose).1.transcations = peer.transcations ∧
      (peer.runCase .OnClose).2 = []) := by
  refine ⟨?_, ?_, ?_, ?_⟩
  · intro t h
    refine ⟨?_, ?_, ?_, ?_⟩
    · intro e he
      simp [WebSocketTransport.close, h, he]
    · intro he
      simp [WebSocketTransport.close, h, he]
    · cases he : t.tErr <;> simp [WebSocketTransport.close, h, he]
    · cases he : t.tErr <;> simp [WebSocketTransport.close, h, he]
  · intro t msgs c s h
    rw [WebSocketTransport.ReadLoop_closeError t msgs c s h]
    refine ⟨rfl, rfl, ?_⟩
    intro hc
    simp [WebSocketTransport.close, hc]
  · intro peer err
    simp [Peer.handleClose]
  · intro peer err rest h
    simp [Peer.runCase, h, Peer.handleClose]

theorem WebSocketTransport.close_reason_witness :
    (NewWebSocketTransport ⟨0, 0⟩).shutdown = false ∧
      (NewWebSocketTransport ⟨0, 0⟩).closed = false ∧
      ((NewWebSocketTransport ⟨0, 0⟩).ReadLoop
        ([exampleNotification].map ReadResult.message ++
          [ReadResult.closeError 1006 "abnormal closure"])).close.OnClose =
        (NewWebSocketTransport ⟨0, 0⟩).OnClose ++ [⟨1006, "abnormal closure"⟩] :=
  ⟨rfl, rfl,
    (WebSocketTransport.close_reason.2.1 (NewWebSocketTransport ⟨0, 0⟩)
      [exampleNotification] 1006 "abnormal closure" rfl).2.2 rfl⟩

/-! ## Room broadcast -/

theorem Peer.Notify_encodable (peer : Peer) (method : String) (doc : Json) :
    peer.Notify method (.encodable doc) =
      { peer with
        transport := { peer.transport with
          SendCh := peer.transport.SendCh ++
            [.json (.obj [("notification", .bool true), ("method", .str method),
              ("data", doc)])] } } := by
  simp [Peer.Notify, Marshal, Notification.Marshal, rawField, Peer.send]

theorem Peer.Notify_unencodable (peer : Peer) (method : String) (err : String) :
    peer.Notify method (.unencodable err) = peer := by
  simp [Peer.Notify, Marshal]

theorem Room.notifyRange_keys (sender : Peer) (method : String) (data : GoValue)
    (entries : List (String × Peer)) :
    (Room.notifyRange sender method data entries).map Prod.fst = entries.map Prod.fst := by
  induction entries with
  | nil => simp [Room.notifyRange]
  | cons e rest ih =>
    obtain ⟨id, peer⟩ := e
    by_cases h : id = sender.ID <;> simp [Room.notifyRange, h, ih]

theorem Room.notifyRange_get (sender : Peer) (method : String) (data : GoValue)
    (entries : List (String × Peer)) :
    ∀ (i : Nat) (id : String) (peer : Peer), entries[i]? = some (id, peer) →
      (id ≠ sender.ID →
        (Room.notifyRange sender method data entries)[i]? =
          some (id, peer.Notify method data)) ∧
      (id = sender.ID →
        (Room.notifyRange sender method data entries)[i]? = some (id, peer)) := by
  induction entries with
  | nil => intro i id peer h; simp at h
  | cons e rest ih =>
    obtain ⟨id0, peer0⟩ := e
    intro i id peer h
    cases i with
    | zero =>
      simp only [List.getElem?_cons_zero, Option.some.injEq, Prod.mk.injEq] at h
      obtain ⟨h1, h2⟩ := h
      subst h1 h2
      by_cases hs : id0 = sender.ID <;> simp [Room.notifyRange, hs]
    | succ n =>
      simp only [List.getElem?_cons_succ] at h
      have := ih n id peer h
      by_cases hs : id0 = sender.ID <;> simpa [Room.notifyRange, hs] using this

theorem Room.notifyRange_queued (sender : Peer) (method : String) (doc : Json)
    (entries : List (String × Peer)) :
    ((Room.notifyRange sender method (.encodable doc) entries).map
        (fun e => e.2.transport.SendCh.length)).sum =
      (entries.map (fun e => e.2.transport.SendCh.length)).sum +
        (entries.filter (fun e => e.1 != sender.ID)).length := by
  induction entries with
  | nil => simp [Room.notifyRange]
  | cons e rest ih =>
    obtain ⟨id, peer⟩ := e
    by_cases h : id = sender.ID
    · simp [Room.notifyRange, h, ih]
      omega
    · simp [Room.notifyRange, h, ih, Peer.Notify_encodable]
      omega

theorem Room.notifyRange_only_sender (sender : Peer) (method : String) (data : GoValue)
    (entries : List (String × Peer)) (h : ∀ e ∈ entries, e.1 = sender.ID) :
    Room.notifyRange sender method data entries = entries := by
  induction entries with
  | nil => simp [Room.notifyRange]
  | cons e rest ih =>
    obtain ⟨id, peer⟩ := e
    have h0 : id = sender.ID := h (id, peer) (by simp)
    have hrest : ∀ e ∈ rest, e.1 = sender.ID := fun e he => h e (by simp [he])
    simp [Room.notifyRange, h0, ih hrest]

theorem Peer.Notify_ID (peer : Peer) (method : String) (data : GoValue) :
    (peer.Notify method data).ID = peer.ID := by
  cases data with
  | encodable doc => rw [Peer.Notify_encodable]; rfl
  | unencodable err => rw [Peer.Notify_unencodable]

theorem Room.AddPeer_keys (room : Room) (newPeer : Peer)
    (h : ∀ e ∈ room.peers, e.1 = e.2.ID) :
    ∀ e ∈ (room.AddPeer newPeer).peers, e.1 = e.2.ID := by
  intro e he
  simp only [Room.AddPeer, mapAssign] at he
  split at he
  · rw [List.mem_map] at he
    obtain ⟨e0, he0, hmap⟩ := he
    split at hmap
    · rw [← hmap]
    · rw [← hmap]
      exact h e0 he0
  · rw [List.mem_append] at he
    rcases he with he | he
    · exact h e he
    · simp only [List.mem_singleton] at he
      rw [he]

theorem Room.notifyRange_ids (sender : Peer) (method : String) (data : GoValue)
    (entries : List (String × Peer)) (h : ∀ e ∈ entries, e.1 = e.2.ID) :
    ∀ e ∈ Room.notifyRange sender method data entries, e.1 = e.2.ID := by
  induction entries with
  | nil => simp [Room.notifyRange]
  | cons e0 rest ih =>
    obtain ⟨id, peer⟩ := e0
    have h0 : id = peer.ID := h (id, peer) (by simp)
    have hrest : ∀ e ∈ rest, e.1 = e.2.ID := fun e he => h e (by simp [he])
    intro e he
    by_cases hs : id = sender.ID
    · simp only [Room.notifyRange, hs, bne_self_eq_false, Bool.false_eq_true, if_false,
        List.mem_cons] at he
      rcases he with he | he
      · rw [he]
        exact hs ▸ h0
      · exact ih hrest e he
    · have hb : (id != sender.ID) = true := by simpa using hs
      simp only [Room.notifyRange, hb, if_true, List.mem_cons] at he
      rcases he with he | he
      · rw [he]
        simp only
        rw [Peer.Notify_ID]
        exact h0
      · exact ih hrest e he

/-- C3. Broadcast exclusion: `Room.Notify(from, method, data)` visits the
entries of the peer map one by one, in whatever order. On the member under
each key other than `from.ID()` it calls `Peer.Notify(method, data)`, once;
the member under the key `from.ID()` is left as it was. The keys of the map
and the room's other fields stay as they were. With encodable data each
call puts exactly one frame, the notification, on that member's send queue
and changes nothing else of it, so the frames queued in the room grow by the
number of members other than `from`. When no key differs from `from.ID()`,
as in a room that holds only `from`, nothing is sent and the room is as it
was. `AddPeer` stores a peer under its own id, so in a room filled by
`AddPeer` the key of a member is that member's id, before and after. -/
theorem Room.Notify_broadcast_exclusion (room : Room) (sender : Peer) (method : String)
    (data : GoValue) :
    (room.Notify sender method data).peers.map Prod.fst = room.peers.map Prod.fst ∧
    (room.Notify sender method data).closed = room.closed ∧
    (room.Notify sender method data).id = room.id ∧
    (∀ (i : Nat) (id : String) (peer : Peer), room.peers[i]? = some (id, peer) →
      (id ≠ sender.ID →
        (room.Notify sender method data).peers[i]? = some (id, peer.Notify method data)) ∧
      (id = sender.ID → (room.Notify sender method data).peers[i]? = some (id, peer))) ∧
    (∀ doc, data = .encodable doc →
      (∀ peer : Peer,
        (peer.Notify method data).transport.SendCh =
          peer.transport.SendCh ++
            [.json (.obj [("notification", .bool true), ("method", .str method),
              ("data", doc)])] ∧
        { peer.Notify method data with
          transport := { (peer.Notify method data).transport with
            SendCh := peer.transport.SendCh } } = peer) ∧
      (room.Notify sender method data).queued =
        room.queued + (room.peers.filter (fun e => e.1 != sender.ID)).length) ∧
    ((∀ e ∈ room.peers, e.1 = sender.ID) → room.Notify sender method data = room) ∧
    (room.peers = [(sender.ID, sender)] → room.Notify sender method data = room) ∧
    ((∀ e ∈ room.peers, e.1 = e.2.ID) →
      (∀ newPeer : Peer, ∀ e ∈ (room.AddPeer newPeer).peers, e.1 = e.2.ID) ∧
      (∀ e ∈ (room.Notify sender method data).peers, e.1 = e.2.ID)) := by
  refine ⟨?_, rfl, rfl, ?_, ?_, ?_, ?_, ?_⟩
  · exact Room.notifyRange_keys sender method data room.peers
  · exact Room.notifyRange_get sender method data room.peers
  · intro doc hd
    subst hd
    refine ⟨?_, ?_⟩
    · intro peer
      rw [Peer.Notify_encodable]
      exact ⟨rfl, rfl⟩
    · exact Room.notifyRange_queued sender method doc room.peers
  · intro h
    simp [Room.Notify, Room.notifyRange_only_sender sender method data room.peers h]
  · intro h
    have hall : ∀ e ∈ room.peers, e.1 = sender.ID := by
      intro e he
      rw [h] at he
      simp at he
      rw [he]
    simp [Room.Notify, Room.notifyRange_only_sender sender method data room.peers hall]
  · intro h
    exact ⟨fun newPeer => Room.AddPeer_keys room newPeer h,
      Room.notifyRange_ids sender method data room.peers h⟩

theorem Room.Notify_broadcast_exclusion_witness :
    exampleRoom.peers[1]? = some ("B", peerB) ∧ "B" ≠ peerA.ID ∧
      exampleRoom.peers[0]? = some ("A", peerA) ∧ "A" = peerA.ID ∧
      (exampleRoom.Notify peerA "m" (.encodable .null)).peers[1]? =
        some ("B", peerB.Notify "m" (.encodable .null)) ∧
      (exampleRoom.Notify peerA "m" (.encodable .null)).peers[0]? = some ("A", peerA) ∧
      (exampleRoom.Notify peerA "m" (.encodable .null)).queued = exampleRoom.queued + 2 :=
  ⟨rfl, by decide, rfl, rfl,
    ((Room.Notify_broadcast_exclusion exampleRoom peerA "m" (.encodable .null)).2.2.2.1
      1 "B" peerB rfl).1 (by decide),
    ((Room.Notify_broadcast_exclusion exampleRoom peerA "m" (.encodable .null)).2.2.2.1
      0 "A" peerA rfl).2 rfl,
    ((Room.Notify_broadcast_exclusion exampleRoom peerA "m" (.encodable .null)).2.2.2.2.1
      .null rfl).2⟩

end Protoo
